import Mathlib

/-!
Verification of the Adafruit Motor Shield V2 user-space driver
(`src/Adafruit/MotorShield.cpp`, with the 8-bit sibling
`src/adafruit/Adafruit_MotorShield.cpp`): the stepper phase-sequencing
engine (`StepperMotor::onestep`), the step scheduler with its timer-tick
handler (`StepperMotor::step` / `stepHandlerFn` / `stopMotor`), and the
PWM channel driver entry points (`MotorShield::begin` / `setPWM` /
`setPin`).

Machine integers are modelled as `Nat` with explicit reductions modulo
`2^16`.  The header revision matching `src/Adafruit/MotorShield.cpp` is
not in the tree (the in-tree `MotorShield.hpp` predates the
`stop`/`moving`/`cond` members and the `STEP128`/`STEP256`/`STEP512`
divisors used by the implementation), so where a member declaration is
needed the field widths follow the spec's data model: `currentPhase`
is a `u16` counter, `microstepDivisor` a `u16`, `periodPerStepMicros`
an unsigned count of microseconds with `0` meaning unconfigured.
-/

namespace Adafruit

/-- Stepping styles (`MotorStyle` in `MotorShield.hpp`). -/
inductive MotorStyle where
  | SINGLE
  | DOUBLE
  | INTERLEAVE
  | MICROSTEP
deriving DecidableEq, Repr

/-- Directions (`MotorDir` in `MotorShield.hpp`). -/
inductive MotorDir where
  | FORWARD
  | BACKWARD
  | BRAKE
  | RELEASE
deriving DecidableEq, Repr

/-- Modelled from the spec: the `currentPhase` counter of `StepperState`
is a `u16` (`currentstep` in the code; the header revision declaring it
is missing from the tree), so unsigned wraparound is modulo `2^16`. -/
def U16 : Nat := 65536

/-- The seven valid microstep divisors (the `MicroSteps` enumeration
cases handled by `MotorShield::getStepper` and `StepperMotor::setStep`
in `MotorShield.cpp`). -/
def validMicrosteps : List Nat := [8, 16, 32, 64, 128, 256, 512]

/-- The quarter-sine microstep table for divisor 16
(`microstepcurve16` in `MotorShield.cpp`, 12-bit full scale). -/
def microstepcurve16 : List Nat :=
  [0, 401, 798, 1188, 1567, 1930, 2275, 2597, 2895, 3165, 3404,
   3611, 3783, 3918, 4016, 4075, 4095]

/-- The quarter-sine microstep table for divisor 8
(`microstepcurve8` in `MotorShield.cpp`, 12-bit full scale). -/
def microstepcurve8 : List Nat :=
  [0, 798, 1567, 2275, 2895, 3404, 3783, 4016, 4095]

/-- Table lookup for divisor 16, as a total function. -/
def curve16 : Nat → Nat := fun i => microstepcurve16.getD i 0

/-- An all-zero stand-in curve, used where a concrete table is needed
but the phase arithmetic under scrutiny never reads it. -/
def zeroCurve : Nat → Nat := fun _ => 0

/-- `StepperMotor::onestep` (MotorShield.cpp:678-874), phase update and
coil PWM magnitudes.  `curve` is the selected microstep table,
`microsteps` the divisor `M`, `currentstep` the phase on entry; `dir`
and `style` are the direction and stepping style arguments.  Returns
`(new currentstep, ocra, ocrb)`.  All `+`/`-`/`++`/`--` on the `u16`
`currentstep` are modelled modulo `U16`; a C++ subtraction `x -= d` is
`(x + (U16 - d)) % U16`.  The final two statements of the source's
phase handling, `currentstep += microsteps * 4; currentstep %=
microsteps * 4;`, appear once inside the MICROSTEP branch (lines
759-760) and once unconditionally (lines 787-788). -/
def onestep (curve : Nat → Nat) (microsteps currentstep : Nat)
    (dir : MotorDir) (style : MotorStyle) : Nat × Nat × Nat :=
  let cs1 : Nat :=
    if style = .SINGLE then
      if (currentstep / (microsteps / 2)) % 2 = 1 then
        if dir = .FORWARD then (currentstep + microsteps / 2) % U16
        else (currentstep + (U16 - microsteps / 2)) % U16
      else
        if dir = .FORWARD then (currentstep + microsteps) % U16
        else (currentstep + (U16 - microsteps)) % U16
    else if style = .DOUBLE then
      if (currentstep / (microsteps / 2)) % 2 = 0 then
        if dir = .FORWARD then (currentstep + microsteps / 2) % U16
        else (currentstep + (U16 - microsteps / 2)) % U16
      else
        if dir = .FORWARD then (currentstep + microsteps) % U16
        else (currentstep + (U16 - microsteps)) % U16
    else if style = .INTERLEAVE then
      if dir = .FORWARD then (currentstep + microsteps / 2) % U16
      else (currentstep + (U16 - microsteps / 2)) % U16
    else currentstep
  if style = .MICROSTEP then
    let cs2 : Nat :=
      if dir = .FORWARD then (cs1 + 1) % U16 else (cs1 + (U16 - 1)) % U16
    let cs3 : Nat := ((cs2 + microsteps * 4) % U16) % (microsteps * 4)
    let oab : Nat × Nat :=
      if cs3 < microsteps then
        (curve (microsteps - cs3), curve cs3)
      else if microsteps ≤ cs3 ∧ cs3 < microsteps * 2 then
        (curve (cs3 - microsteps), curve (microsteps * 2 - cs3))
      else if microsteps * 2 ≤ cs3 ∧ cs3 < microsteps * 3 then
        (curve (microsteps * 3 - cs3), curve (cs3 - microsteps * 2))
      else if microsteps * 3 ≤ cs3 ∧ cs3 < microsteps * 4 then
        (curve (cs3 - microsteps * 3), curve (microsteps * 4 - cs3))
      else (0, 0)
    let cs4 : Nat := ((cs3 + microsteps * 4) % U16) % (microsteps * 4)
    (cs4, oab.1, oab.2)
  else
    let cs4 : Nat := ((cs1 + microsteps * 4) % U16) % (microsteps * 4)
    (cs4, 4095, 4095)

/-- The 4-bit energization latch computed at the tail of `onestep`
(MotorShield.cpp:795-837) from the updated phase `s`.  The source's
`latch_state |=` accumulations have mutually exclusive guards, modelled
here with `|||`. -/
def onestepLatch (microsteps s : Nat) (style : MotorStyle) : Nat :=
  if style = .MICROSTEP then
    (if s < microsteps then 3 else 0) |||
    (if microsteps ≤ s ∧ s < microsteps * 2 then 6 else 0) |||
    (if microsteps * 2 ≤ s ∧ s < microsteps * 3 then 12 else 0) |||
    (if microsteps * 3 ≤ s ∧ s < microsteps * 4 then 9 else 0)
  else
    match s / (microsteps / 2) with
    | 0 => 1
    | 1 => 3
    | 2 => 2
    | 3 => 6
    | 4 => 4
    | 5 => 12
    | 6 => 8
    | 7 => 9
    | _ => 0

/-- The spec's quadrant-relative microstep table lookup (spec section
4.2, MICROSTEP style): quadrant 0 gives `(table[M-phase], table[phase])`,
quadrant 1 `(table[phase-M], table[2M-phase])`, quadrant 2
`(table[3M-phase], table[phase-2M])`, quadrant 3
`(table[phase-3M], table[4M-phase])`.  Refinement target for claim C3. -/
def microstepLookupSpec (curve : Nat → Nat) (m s : Nat) : Nat × Nat :=
  if s < m then (curve (m - s), curve s)
  else if s < m * 2 then (curve (s - m), curve (m * 2 - s))
  else if s < m * 3 then (curve (m * 3 - s), curve (s - m * 2))
  else if s < m * 4 then (curve (s - m * 3), curve (m * 4 - s))
  else (0, 0)

/-- `n` applications of `onestep`, tracking only the phase (the driver's
`StepperMotor::step` performs exactly this via repeated timer ticks). -/
def iterOnestep (c : Nat → Nat) (microsteps : Nat) (dir : MotorDir)
    (style : MotorStyle) : Nat → Nat → Nat
  | 0, p => p
  | n + 1, p => iterOnestep c microsteps dir style n ((onestep c microsteps p dir style).1)

/-- Modelled from the spec: the concurrency-visible per-channel state of
`StepperMotor` used by `stepHandlerFn`, `stopMotor` and `isMoving` —
the `u16` phase `currentstep`, the cancellation flag `stop` and the
`moving` flag.  The members are assigned in `MotorShield.cpp` but
declared in a header revision missing from the tree. -/
structure StepperState where
  phase : Nat
  stop : Bool
  moving : Bool
deriving DecidableEq, Repr

/-- The timer context `StepperMotorTimerData` handed to `stepHandlerFn`:
remaining tick count (`u16`), direction, style and the microstep
divisor `msteps`.  The callback-function members are not modelled. -/
structure TimerData where
  steps : Nat
  dir : MotorDir
  style : MotorStyle
  msteps : Nat
deriving DecidableEq, Repr

/-- `StepperMotor::isMoving` (MotorShield.cpp:660-663). -/
def isMoving (s : StepperState) : Bool := s.moving

/-- `StepperMotor::stopMotor` (MotorShield.cpp:665-669): sets the
cancellation flag only while `moving` is true. -/
def stopMotor (s : StepperState) : StepperState :=
  if s.moving then { s with stop := true } else s

/-- One timer tick, `StepperMotor::stepHandlerFn`
(MotorShield.cpp:876-903): at a non-integral microstep boundary in
MICROSTEP style the handler steps unconditionally and returns early;
otherwise it steps only while ticks remain and `stop` is unset, then
clears `moving` (and notifies the waiter) once ticks are exhausted or
`stop` is observed.  The user callback is invoked while `moving`; it
does not alter the modelled state. -/
def stepHandlerFn (c : Nat → Nat) (d : TimerData) (s : StepperState) :
    TimerData × StepperState :=
  if d.steps % d.msteps ≠ 0 ∧ d.style = .MICROSTEP then
    (⟨d.steps - 1, d.dir, d.style, d.msteps⟩,
     ⟨(onestep c d.msteps s.phase d.dir d.style).1, s.stop, true⟩)
  else
    let ds1 : TimerData × StepperState :=
      if d.steps ≠ 0 ∧ s.stop = false then
        (⟨d.steps - 1, d.dir, d.style, d.msteps⟩,
         ⟨(onestep c d.msteps s.phase d.dir d.style).1, s.stop, true⟩)
      else (d, s)
    if ds1.1.steps = 0 ∨ ds1.2.stop = true then
      (ds1.1, ⟨ds1.2.phase, ds1.2.stop, false⟩)
    else ds1

/-- `n` consecutive timer ticks of `stepHandlerFn`. -/
def iterHandler (c : Nat → Nat) : Nat → TimerData × StepperState → TimerData × StepperState
  | 0, x => x
  | n + 1, x => iterHandler c n (stepHandlerFn c x.1 x.2)

/-- `StepperMotor::setSpeed` (MotorShield.cpp:573-584).  Throws for
`rpm <= 0`; otherwise, if the non-blocking `try_to_lock` acquisition
succeeds (`lockOwned`), stores `60000000 / (revsteps * rpm)` into the
unsigned `usperstep` and returns true, else returns false without
storing.  The C++ `double` arithmetic is modelled by exact rational
arithmetic followed by the truncating conversion to the unsigned
integer field; `.ok (some u)` is a true return with `usperstep = u`,
`.ok none` a false return. -/
def setSpeed (revsteps : Nat) (rpm : ℚ) (lockOwned : Bool) :
    Except String (Option Nat) :=
  if rpm ≤ 0 then .error "Motor speed can not be negative or zero."
  else if lockOwned then
    .ok (some (Int.toNat ⌊(60000000 : ℚ) / (revsteps * rpm)⌋))
  else .ok none

/-- `StepperMotor::getStepPeriod` (MotorShield.cpp:671-676): throws
while the speed is unconfigured (`usperstep = 0`), else returns
`usperstep`. -/
def getStepPeriod (usperstep : Nat) : Except String Nat :=
  if usperstep = 0 then .error "RPM has to be set before stepping the motor."
  else .ok usperstep

/-- The head of `StepperMotor::step` (MotorShield.cpp:621-642) and of
`stepThreadFn` (MotorShield.cpp:905-921), which compute identically:
the unconfigured-speed check (a throw before any other action, in
particular before any hardware write or clock creation), then the
per-tick interval `uspers` (halved for INTERLEAVE, divided by the
divisor for MICROSTEP) and the tick count: the `u16` `steps` variable
is reassigned `steps *= microsteps` for MICROSTEP, wrapping modulo
`2^16`.  On success the armed clock then drives `stepHandlerFn` at the
returned interval for the returned number of ticks. -/
def step (usperstep microsteps steps : Nat) (style : MotorStyle) :
    Except String (Nat × Nat) :=
  if usperstep = 0 then .error "RPM has to be set before stepping the motor."
  else
    let uspers : Nat :=
      if style = .INTERLEAVE then usperstep / 2
      else if style = .MICROSTEP then usperstep / microsteps
      else usperstep
    let steps2 : Nat :=
      if style = .MICROSTEP then (steps * microsteps) % U16 else steps
    .ok (uspers, steps2)

/-- A hardware write of the private `MotorShield::setPWM(num, on, off)`
overload (MotorShield.cpp:1009-1028): the channel and the on/off tick
registers written in one transaction. -/
structure PWMWrite where
  num : Nat
  onv : Nat
  offv : Nat
deriving DecidableEq, Repr

/-- The private `MotorShield::setPWM(num, on, off)` overload
(MotorShield.cpp:1009-1028): issues one register-block write; `io`
abstracts the success of the retried i2c transfer. -/
def setPWMOnOff (io : Nat → Nat → Nat → Bool) (num onv offv : Nat) :
    Bool × List PWMWrite :=
  (io num onv offv, [⟨num, onv, offv⟩])

/-- The public `MotorShield::setPWM(pin, value)` (MotorShield.cpp:322-338):
returns false with no write while uninitialized; clamps `value > 4095`
to the always-on sentinel `(on, off) = (4096, 0)`, else writes
`(0, value)`. -/
def setPWM (io : Nat → Nat → Nat → Bool) (initd : Bool) (pin value : Nat) :
    Bool × List PWMWrite :=
  if initd = false then (false, [])
  else if value > 4095 then setPWMOnOff io pin 4096 0
  else setPWMOnOff io pin 0 value

/-- `MotorShield::setPin(pin, value)` (MotorShield.cpp:340-356): returns
false with no write while uninitialized; writes `(0, 0)` for LOW and
the always-on sentinel `(4096, 0)` for HIGH. -/
def setPin (io : Nat → Nat → Nat → Bool) (initd : Bool) (pin : Nat) (value : Bool) :
    Bool × List PWMWrite :=
  if initd = false then (false, [])
  else if value = false then setPWMOnOff io pin 0 0
  else setPWMOnOff io pin 4096 0

/-- `MotorShield::begin` (MotorShield.cpp:305-320), after a successful
bus open: `status` starts true, is `&=`-chained through `reset()`,
`setPWMFreq(freq)` and the sixteen `setPWM(i, 0, 0)` zeroing writes
(`resetOk`, `freqOk` and `pwmOk i` abstract the success of each), and
the result is both stored into `initd` and returned.  Returns
`(returned status, stored initd)`. -/
def begin (resetOk freqOk : Bool) (pwmOk : Nat → Bool) : Bool × Bool :=
  let status := true
  let status := status && resetOk
  let status := status && freqOk
  let status := (List.range 16).foldl (fun st i => st && pwmOk i) status
  (status, status)

/-- A constant always-succeeding i2c transfer, for concrete witnesses. -/
def ioTrue : Nat → Nat → Nat → Bool := fun _ _ _ => true

/-! ### Arithmetic helpers for the u16 phase counter -/

theorem U16_pos : 0 < U16 := by norm_num [U16]

/-- The source's final `currentstep += 4M; currentstep %= 4M` collapses a
u16-wrapped value to its residue modulo `4M` whenever `4M` divides `2^16`. -/
theorem final_wrap (y fm : Nat) (h : fm ∣ U16) :
    ((y + fm) % U16) % fm = y % fm := by
  rw [Nat.mod_mod_of_dvd _ h, Nat.add_mod_right]

/-- Renormalizing an already-reduced phase is the identity. -/
theorem renorm (x fm : Nat) (h : fm ∣ U16) (hx : x < fm) :
    ((x + fm) % U16) % fm = x := by
  rw [final_wrap x fm h]
  exact Nat.mod_eq_of_lt hx

/-- A u16 two's-complement subtraction `x - d`, once reduced modulo a
divisor `fm` of `2^16`, agrees with subtraction modulo `fm`. -/
theorem u16_sub_mod (x d fm : Nat) (h : fm ∣ U16) (hd : d ≤ fm) :
    (x + (U16 - d)) % fm = (x + (fm - d)) % fm := by
  obtain ⟨k, hk⟩ := h
  rcases k with _ | k1
  · simp [U16] at hk
  · have hsplit : U16 - d = (fm - d) + fm * k1 := by
      have h2 : U16 = fm * k1 + fm := by rw [hk, Nat.mul_succ]
      set t := fm * k1 with ht
      omega
    rw [hsplit, ← Nat.add_assoc, Nat.add_mul_mod_self_left]

/-- Division parity as a modular condition: `p / h` is even exactly when
`p` lies in the lower half of its `2h`-block. -/
theorem div_parity_iff (p h : Nat) (hh : 0 < h) :
    (p / h) % 2 = 0 ↔ p % (h * 2) < h := by
  rw [← Nat.mod_mul_right_div_self]
  have hlt : p % (h * 2) < h * 2 := Nat.mod_lt _ (by omega)
  constructor
  · intro h0
    by_contra hge
    push_neg at hge
    have : p % (h * 2) / h = 1 := by
      have h1 : 1 ≤ p % (h * 2) / h := (Nat.le_div_iff_mul_le hh).mpr (by omega)
      have h2 : p % (h * 2) / h < 2 := Nat.div_lt_of_lt_mul (by omega)
      omega
    omega
  · intro hlo
    rw [Nat.div_eq_of_lt hlo]

/-- Division parity as a modular condition, odd case. -/
theorem div_parity_iff_one (p h : Nat) (hh : 0 < h) :
    (p / h) % 2 = 1 ↔ h ≤ p % (h * 2) := by
  have h2 := div_parity_iff p h hh
  have ha : (p / h) % 2 < 2 := Nat.mod_lt _ (by omega)
  constructor
  · intro h1
    by_contra hge
    push_neg at hge
    have := h2.mpr hge
    omega
  · intro hge
    have : ¬ ((p / h) % 2 = 0) := fun h0 => by
      have := h2.mp h0
      omega
    omega

/-! ### Phase-update identities for onestep -/

/-- SINGLE style, forward, from an odd half-step position: the source
adds `M/2` (the resynchronizing half step). -/
theorem single_fwd_odd (c : Nat → Nat) (M p : Nat) (h4 : 4 * M ∣ U16)
    (hpar : (p / (M / 2)) % 2 = 1) :
    (onestep c M p .FORWARD .SINGLE).1 = (p + M / 2) % (4 * M) := by
  simp [onestep, hpar]
  rw [Nat.mul_comm M 4]
  exact final_wrap (p + M / 2) (4 * M) h4

/-- SINGLE style, backward, from an odd half-step position: subtracts `M/2`. -/
theorem single_bwd_odd (c : Nat → Nat) (M p : Nat) (h4 : 4 * M ∣ U16)
    (hpar : (p / (M / 2)) % 2 = 1) :
    (onestep c M p .BACKWARD .SINGLE).1 = (p + (4 * M - M / 2)) % (4 * M) := by
  simp [onestep, hpar]
  rw [Nat.mul_comm M 4, final_wrap (p + (U16 - M / 2)) (4 * M) h4]
  exact u16_sub_mod p (M / 2) (4 * M) h4 (by omega)

/-- SINGLE style, forward, from an even half-step position: adds a full
step `M`. -/
theorem single_fwd_even (c : Nat → Nat) (M p : Nat) (h4 : 4 * M ∣ U16)
    (hpar : (p / (M / 2)) % 2 = 0) :
    (onestep c M p .FORWARD .SINGLE).1 = (p + M) % (4 * M) := by
  simp [onestep, hpar]
  rw [Nat.mul_comm M 4]
  exact final_wrap (p + M) (4 * M) h4

/-- SINGLE style, backward, from an even half-step position: subtracts `M`. -/
theorem single_bwd_even (c : Nat → Nat) (M p : Nat) (h4 : 4 * M ∣ U16)
    (hpar : (p / (M / 2)) % 2 = 0) :
    (onestep c M p .BACKWARD .SINGLE).1 = (p + (4 * M - M)) % (4 * M) := by
  simp [onestep, hpar]
  rw [Nat.mul_comm M 4, final_wrap (p + (U16 - M)) (4 * M) h4]
  exact u16_sub_mod p M (4 * M) h4 (by omega)

/-- DOUBLE style, forward, from an even half-step position: adds `M/2`. -/
theorem double_fwd_even (c : Nat → Nat) (M p : Nat) (h4 : 4 * M ∣ U16)
    (hpar : (p / (M / 2)) % 2 = 0) :
    (onestep c M p .FORWARD .DOUBLE).1 = (p + M / 2) % (4 * M) := by
  simp [onestep, hpar]
  rw [Nat.mul_comm M 4]
  exact final_wrap (p + M / 2) (4 * M) h4

/-- DOUBLE style, backward, from an even half-step position: subtracts `M/2`. -/
theorem double_bwd_even (c : Nat → Nat) (M p : Nat) (h4 : 4 * M ∣ U16)
    (hpar : (p / (M / 2)) % 2 = 0) :
    (onestep c M p .BACKWARD .DOUBLE).1 = (p + (4 * M - M / 2)) % (4 * M) := by
  simp [onestep, hpar]
  rw [Nat.mul_comm M 4, final_wrap (p + (U16 - M / 2)) (4 * M) h4]
  exact u16_sub_mod p (M / 2) (4 * M) h4 (by omega)

/-- DOUBLE style, forward, from an odd half-step position: adds `M`. -/
theorem double_fwd_odd (c : Nat → Nat) (M p : Nat) (h4 : 4 * M ∣ U16)
    (hpar : (p / (M / 2)) % 2 = 1) :
    (onestep c M p .FORWARD .DOUBLE).1 = (p + M) % (4 * M) := by
  simp [onestep, hpar]
  rw [Nat.mul_comm M 4]
  exact final_wrap (p + M) (4 * M) h4

/-- DOUBLE style, backward, from an odd half-step position: subtracts `M`. -/
theorem double_bwd_odd (c : Nat → Nat) (M p : Nat) (h4 : 4 * M ∣ U16)
    (hpar : (p / (M / 2)) % 2 = 1) :
    (onestep c M p .BACKWARD .DOUBLE).1 = (p + (4 * M - M)) % (4 * M) := by
  simp [onestep, hpar]
  rw [Nat.mul_comm M 4, final_wrap (p + (U16 - M)) (4 * M) h4]
  exact u16_sub_mod p M (4 * M) h4 (by omega)

/-- INTERLEAVE style, forward: always adds `M/2`. -/
theorem inter_fwd (c : Nat → Nat) (M p : Nat) (h4 : 4 * M ∣ U16) :
    (onestep c M p .FORWARD .INTERLEAVE).1 = (p + M / 2) % (4 * M) := by
  simp [onestep]
  rw [Nat.mul_comm M 4]
  exact final_wrap (p + M / 2) (4 * M) h4

/-- INTERLEAVE style, backward: always subtracts `M/2`. -/
theorem inter_bwd (c : Nat → Nat) (M p : Nat) (h4 : 4 * M ∣ U16) :
    (onestep c M p .BACKWARD .INTERLEAVE).1 = (p + (4 * M - M / 2)) % (4 * M) := by
  simp [onestep]
  rw [Nat.mul_comm M 4, final_wrap (p + (U16 - M / 2)) (4 * M) h4]
  exact u16_sub_mod p (M / 2) (4 * M) h4 (by omega)

/-- MICROSTEP style, forward: the phase advances by exactly 1 modulo `4M`. -/
theorem micro_fwd (c : Nat → Nat) (M p : Nat) (h4 : 4 * M ∣ U16) (hM : 0 < M) :
    (onestep c M p .FORWARD .MICROSTEP).1 = (p + 1) % (4 * M) := by
  simp [onestep]
  rw [Nat.mul_comm M 4, final_wrap (p + 1) (4 * M) h4]
  exact renorm _ _ h4 (Nat.mod_lt _ (by omega))

/-- MICROSTEP style, backward: the phase retreats by exactly 1 modulo `4M`. -/
theorem micro_bwd (c : Nat → Nat) (M p : Nat) (h4 : 4 * M ∣ U16) (hM : 0 < M) :
    (onestep c M p .BACKWARD .MICROSTEP).1 = (p + (4 * M - 1)) % (4 * M) := by
  simp [onestep]
  rw [Nat.mul_comm M 4, final_wrap (p + (U16 - 1)) (4 * M) h4,
    u16_sub_mod p 1 (4 * M) h4 (by omega)]
  exact renorm _ _ h4 (Nat.mod_lt _ (by omega))

/-- The source's microstep quadrant chain, evaluated at the intermediate
normalized phase `s3`, agrees with the spec's quadrant-relative lookup
at the final phase (which renormalization leaves at `s3`). -/
theorem micro_chain (c : Nat → Nat) (M s3 : Nat) (h4 : 4 * M ∣ U16)
    (hs3 : s3 < M * 4) :
    (if s3 < M then (c (M - s3), c s3)
     else if M ≤ s3 ∧ s3 < M * 2 then (c (s3 - M), c (M * 2 - s3))
     else if M * 2 ≤ s3 ∧ s3 < M * 3 then (c (M * 3 - s3), c (s3 - M * 2))
     else if M * 3 ≤ s3 ∧ s3 < M * 4 then (c (s3 - M * 3), c (M * 4 - s3))
     else (0, 0)) =
    microstepLookupSpec c M ((s3 + M * 4) % U16 % (M * 4)) := by
  have h4' : M * 4 ∣ U16 := by rw [Nat.mul_comm]; exact h4
  rw [renorm s3 (M * 4) h4' hs3]
  unfold microstepLookupSpec
  split_ifs <;> first | rfl | omega

/-- In MICROSTEP style, the `(ocra, ocrb)` pair that `onestep` emits is
the spec's quadrant-relative table lookup at the returned phase, for
either direction. -/
theorem micro_pair (c : Nat → Nat) (M p : Nat) (dir : MotorDir)
    (h4 : 4 * M ∣ U16) (hM : 0 < M) :
    (onestep c M p dir .MICROSTEP).2 =
      microstepLookupSpec c M (onestep c M p dir .MICROSTEP).1 := by
  have hlt : 0 < M * 4 := by omega
  cases dir <;>
  · simp [onestep]
    exact micro_chain c M _ h4 (Nat.mod_lt _ hlt)

/-- For every style and direction the phase returned by `onestep` is its
final `%= microsteps * 4` reduction, hence lies below `4M`. -/
theorem onestep_fst_lt (c : Nat → Nat) (M p : Nat) (dir : MotorDir)
    (style : MotorStyle) (hM : 0 < M) :
    (onestep c M p dir style).1 < 4 * M := by
  have key : ∀ x : Nat, x % (M * 4) < 4 * M := fun x => by
    rw [Nat.mul_comm M 4]
    exact Nat.mod_lt _ (by omega)
  cases style <;> cases dir <;> simp [onestep] <;> exact key _

/-! ### Iterated stepping -/

theorem iterOnestep_succ (c : Nat → Nat) (M : Nat) (dir : MotorDir)
    (style : MotorStyle) (n p : Nat) :
    iterOnestep c M dir style (n + 1) p =
      (onestep c M (iterOnestep c M dir style n p) dir style).1 := by
  induction n generalizing p with
  | zero => rfl
  | succ k ih =>
    show iterOnestep c M dir style (k + 1) ((onestep c M p dir style).1) = _
    rw [ih]
    rfl

theorem iterOnestep_pres (c : Nat → Nat) (M : Nat) (dir : MotorDir)
    (style : MotorStyle) (P : Nat → Prop)
    (hf : ∀ q, P q → P ((onestep c M q dir style).1)) :
    ∀ n p, P p → P (iterOnestep c M dir style n p) := by
  intro n
  induction n with
  | zero => intro p hp; exact hp
  | succ k ih => intro p hp; exact ih _ (hf p hp)

/-- If one backward step undoes one forward step on a `P`-invariant set,
then `N` backward steps undo `N` forward steps. -/
theorem roundtrip_generic (c : Nat → Nat) (M : Nat) (style : MotorStyle)
    (P : Nat → Prop)
    (hpres : ∀ q, P q → P ((onestep c M q .FORWARD style).1))
    (hinv : ∀ q, P q →
      (onestep c M ((onestep c M q .FORWARD style).1) .BACKWARD style).1 = q) :
    ∀ N p, P p →
      iterOnestep c M .BACKWARD style N (iterOnestep c M .FORWARD style N p) = p := by
  intro N
  induction N with
  | zero => intro p _; rfl
  | succ k ih =>
    intro p hp
    rw [iterOnestep_succ c M .FORWARD style k p]
    show iterOnestep c M .BACKWARD style k
      ((onestep c M (onestep c M (iterOnestep c M .FORWARD style k p) .FORWARD style).1
        .BACKWARD style).1) = p
    rw [hinv _ (iterOnestep_pres c M .FORWARD style P hpres k p hp)]
    exact ih p hp

/-! ### One-step inverse lemmas per style -/

/-- From an even half-step position, a SINGLE forward step stays in
range, stays on even parity, and is undone by a SINGLE backward step. -/
theorem single_step_ok (c : Nat → Nat) (M p : Nat) (h4 : 4 * M ∣ U16)
    (hM : 0 < M) (hE : M % 2 = 0) (hp : p < 4 * M)
    (hpar : (p / (M / 2)) % 2 = 0) :
    ((onestep c M p .FORWARD .SINGLE).1 < 4 * M ∧
      ((onestep c M p .FORWARD .SINGLE).1 / (M / 2)) % 2 = 0) ∧
    (onestep c M ((onestep c M p .FORWARD .SINGLE).1) .BACKWARD .SINGLE).1 = p := by
  have h2 : 0 < M / 2 := by omega
  have hM2 : M / 2 * 2 = M := by omega
  have hF : (onestep c M p .FORWARD .SINGLE).1 = (p + M) % (4 * M) :=
    single_fwd_even c M p h4 hpar
  have hMdvd : M ∣ 4 * M := ⟨4, by ring⟩
  have hmodM : ((p + M) % (4 * M)) % M = p % M := by
    rw [Nat.mod_mod_of_dvd _ hMdvd, Nat.add_mod_right]
  have hparM : p % M < M / 2 := by
    have := (div_parity_iff p (M / 2) h2).mp hpar
    rwa [hM2] at this
  have hFpar : (((p + M) % (4 * M)) / (M / 2)) % 2 = 0 := by
    apply (div_parity_iff _ (M / 2) h2).mpr
    rw [hM2, hmodM]
    exact hparM
  refine ⟨⟨by rw [hF]; exact Nat.mod_lt _ (by omega), by rw [hF]; exact hFpar⟩, ?_⟩
  rw [hF, single_bwd_even c M _ h4 hFpar, Nat.mod_add_mod]
  rw [show p + M + (4 * M - M) = p + 4 * M by omega]
  rw [Nat.add_mod_right]
  exact Nat.mod_eq_of_lt hp

/-- From an odd half-step position, a DOUBLE forward step stays in
range, stays on odd parity, and is undone by a DOUBLE backward step. -/
theorem double_step_ok (c : Nat → Nat) (M p : Nat) (h4 : 4 * M ∣ U16)
    (hM : 0 < M) (hE : M % 2 = 0) (hp : p < 4 * M)
    (hpar : (p / (M / 2)) % 2 = 1) :
    ((onestep c M p .FORWARD .DOUBLE).1 < 4 * M ∧
      ((onestep c M p .FORWARD .DOUBLE).1 / (M / 2)) % 2 = 1) ∧
    (onestep c M ((onestep c M p .FORWARD .DOUBLE).1) .BACKWARD .DOUBLE).1 = p := by
  have h2 : 0 < M / 2 := by omega
  have hM2 : M / 2 * 2 = M := by omega
  have hF : (onestep c M p .FORWARD .DOUBLE).1 = (p + M) % (4 * M) :=
    double_fwd_odd c M p h4 hpar
  have hMdvd : M ∣ 4 * M := ⟨4, by ring⟩
  have hmodM : ((p + M) % (4 * M)) % M = p % M := by
    rw [Nat.mod_mod_of_dvd _ hMdvd, Nat.add_mod_right]
  have hparM : M / 2 ≤ p % M := by
    have := (div_parity_iff_one p (M / 2) h2).mp hpar
    rwa [hM2] at this
  have hFpar : (((p + M) % (4 * M)) / (M / 2)) % 2 = 1 := by
    apply (div_parity_iff_one _ (M / 2) h2).mpr
    rw [hM2, hmodM]
    exact hparM
  refine ⟨⟨by rw [hF]; exact Nat.mod_lt _ (by omega), by rw [hF]; exact hFpar⟩, ?_⟩
  rw [hF, double_bwd_odd c M _ h4 hFpar, Nat.mod_add_mod]
  rw [show p + M + (4 * M - M) = p + 4 * M by omega]
  rw [Nat.add_mod_right]
  exact Nat.mod_eq_of_lt hp

/-- An INTERLEAVE forward step stays in range and is undone by an
INTERLEAVE backward step. -/
theorem inter_step_ok (c : Nat → Nat) (M p : Nat) (h4 : 4 * M ∣ U16)
    (hM : 0 < M) (hp : p < 4 * M) :
    (onestep c M p .FORWARD .INTERLEAVE).1 < 4 * M ∧
    (onestep c M ((onestep c M p .FORWARD .INTERLEAVE).1) .BACKWARD .INTERLEAVE).1 = p := by
  have hF : (onestep c M p .FORWARD .INTERLEAVE).1 = (p + M / 2) % (4 * M) :=
    inter_fwd c M p h4
  refine ⟨by rw [hF]; exact Nat.mod_lt _ (by omega), ?_⟩
  rw [hF, inter_bwd c M _ h4, Nat.mod_add_mod]
  rw [show p + M / 2 + (4 * M - M / 2) = p + 4 * M by omega]
  rw [Nat.add_mod_right]
  exact Nat.mod_eq_of_lt hp

/-- A MICROSTEP forward step stays in range and is undone by a
MICROSTEP backward step. -/
theorem micro_step_ok (c : Nat → Nat) (M p : Nat) (h4 : 4 * M ∣ U16)
    (hM : 0 < M) (hp : p < 4 * M) :
    (onestep c M p .FORWARD .MICROSTEP).1 < 4 * M ∧
    (onestep c M ((onestep c M p .FORWARD .MICROSTEP).1) .BACKWARD .MICROSTEP).1 = p := by
  have hF : (onestep c M p .FORWARD .MICROSTEP).1 = (p + 1) % (4 * M) :=
    micro_fwd c M p h4 hM
  refine ⟨by rw [hF]; exact Nat.mod_lt _ (by omega), ?_⟩
  rw [hF, micro_bwd c M _ h4 hM, Nat.mod_add_mod]
  rw [show p + 1 + (4 * M - 1) = p + 4 * M by omega]
  rw [Nat.add_mod_right]
  exact Nat.mod_eq_of_lt hp

/-! ### Timer-tick handler lemmas -/

/-- With the cancellation flag set and a style other than MICROSTEP, a
single tick leaves the timer data alone and clears `moving`. -/
theorem nonmicro_tick (c : Nat → Nat) (d : TimerData) (s : StepperState)
    (hstyle : d.style ≠ .MICROSTEP) (hstop : s.stop = true) :
    stepHandlerFn c d s = (d, ⟨s.phase, s.stop, false⟩) := by
  simp [stepHandlerFn, hstyle, hstop]

/-- With the cancellation flag set and a non-MICROSTEP style, every
further tick keeps `moving` cleared. -/
theorem nonmicro_iter (c : Nat → Nat) :
    ∀ (n : Nat) (d : TimerData) (s : StepperState), d.style ≠ .MICROSTEP →
      s.stop = true → (iterHandler c (n + 1) (d, s)).2.moving = false := by
  intro n
  induction n with
  | zero =>
    intro d s hstyle hstop
    show (stepHandlerFn c d s).2.moving = false
    rw [nonmicro_tick c d s hstyle hstop]
  | succ k ih =>
    intro d s hstyle hstop
    show (iterHandler c (k + 1) (stepHandlerFn c d s)).2.moving = false
    rw [nonmicro_tick c d s hstyle hstop]
    exact ih d ⟨s.phase, s.stop, false⟩ hstyle hstop

/-- A tick at a non-integral MICROSTEP boundary takes the early-return
branch: it advances the phase, decrements the ticks, forces `moving`
and never consults the cancellation flag. -/
theorem micro_odd_tick (c : Nat → Nat) (d : TimerData) (s : StepperState)
    (hodd : d.steps % d.msteps ≠ 0) (hstyle : d.style = .MICROSTEP) :
    stepHandlerFn c d s =
      (⟨d.steps - 1, d.dir, d.style, d.msteps⟩,
       ⟨(onestep c d.msteps s.phase d.dir d.style).1, s.stop, true⟩) := by
  simp [stepHandlerFn, hodd, hstyle]

/-- Decrementing a tick count at a non-integral boundary decrements its
residue. -/
theorem mod_pred (steps m r : Nat) (hm : 0 < m) (h : steps % m = r + 1) :
    (steps - 1) % m = r := by
  have hdm := Nat.div_add_mod steps m
  have hrlt : r + 1 < m := by
    have := Nat.mod_lt steps hm
    omega
  have hs1 : steps - 1 = m * (steps / m) + r := by omega
  rw [hs1, Nat.mul_add_mod]
  exact Nat.mod_eq_of_lt (by omega)

/-- Once the cancellation flag is set, `moving` is false after
`(remaining ticks mod divisor) + 1` further ticks, for every style. -/
theorem handler_converges (c : Nat → Nat) :
    ∀ (r : Nat) (d : TimerData) (s : StepperState), s.stop = true →
      0 < d.msteps → d.steps % d.msteps = r →
      (iterHandler c (r + 1) (d, s)).2.moving = false := by
  intro r
  induction r with
  | zero =>
    intro d s hstop hm hr
    show (stepHandlerFn c d s).2.moving = false
    simp [stepHandlerFn, hr, hstop]
  | succ k ih =>
    intro d s hstop hm hr
    show (iterHandler c (k + 1) (stepHandlerFn c d s)).2.moving = false
    by_cases hstyle : d.style = .MICROSTEP
    · rw [micro_odd_tick c d s (by omega) hstyle]
      exact ih ⟨d.steps - 1, d.dir, d.style, d.msteps⟩ _ hstop hm
        (mod_pred d.steps d.msteps k hm hr)
    · rw [nonmicro_tick c d s hstyle hstop]
      exact nonmicro_iter c k d ⟨s.phase, s.stop, false⟩ hstyle hstop

/-- Boolean `&=`-chaining over a list is the conjunction with `List.all`. -/
theorem foldl_and_all (w : Nat → Bool) :
    ∀ (l : List Nat) (st : Bool),
      l.foldl (fun s i => s && w i) st = (st && l.all w) := by
  intro l
  induction l with
  | nil => intro st; simp
  | cons a t ih => intro st; simp [List.foldl, ih, Bool.and_assoc]

/-! ### Claim theorems -/

/-- C1 counterexample: with divisor M = 16 the phase 8 is on an odd
half-step boundary ((8 / (M/2)) % 2 = 1), yet a FORWARD SINGLE onestep
advances by M/2 = 8 to phase 16 — not by the claimed full step M = 16
to phase (8 + 16) % 64 = 24. -/
theorem single_claim_cex :
    ((8 / (16 / 2)) % 2 = 1) ∧
    (onestep zeroCurve 16 8 .FORWARD .SINGLE).1 = 16 ∧
    (onestep zeroCurve 16 8 .FORWARD .SINGLE).1 ≠ (8 + 16) % (4 * 16) := by
  decide

/-- C1 (amended): for SINGLE style, onestep advances currentstep by M/2
(a resynchronizing half step) when the current phase is on an odd
half-step boundary, i.e. (currentstep / (M/2)) % 2 == 1, and otherwise
advances by the full step M; with dir == BACKWARD the same amounts are
subtracted instead of added (modulo 4M). -/
theorem single_style_phase (c : Nat → Nat) (M p : Nat) (h4 : 4 * M ∣ U16) :
    ((p / (M / 2)) % 2 = 1 →
      (onestep c M p .FORWARD .SINGLE).1 = (p + M / 2) % (4 * M) ∧
      (onestep c M p .BACKWARD .SINGLE).1 = (p + (4 * M - M / 2)) % (4 * M)) ∧
    ((p / (M / 2)) % 2 = 0 →
      (onestep c M p .FORWARD .SINGLE).1 = (p + M) % (4 * M) ∧
      (onestep c M p .BACKWARD .SINGLE).1 = (p + (4 * M - M)) % (4 * M)) :=
  ⟨fun h => ⟨single_fwd_odd c M p h4 h, single_bwd_odd c M p h4 h⟩,
   fun h => ⟨single_fwd_even c M p h4 h, single_bwd_even c M p h4 h⟩⟩

/-- Witness for C1 (amended) at M = 16, phase 8 (odd boundary). -/
theorem single_style_phase_witness :
    (onestep zeroCurve 16 8 .FORWARD .SINGLE).1 = (8 + 16 / 2) % (4 * 16) :=
  ((single_style_phase zeroCurve 16 8 (by norm_num [U16])).1 (by decide)).1

/-- C2: for every style, every direction and every starting currentstep
in [0, 4M), the phase after onestep is again in [0, 4M): the unsigned
additions/subtractions followed by the final += 4M; %= 4M never let an
out-of-range phase escape, even when a backward step underflows the
unsigned counter. -/
theorem onestep_phase_bound (c : Nat → Nat) (M p : Nat) (dir : MotorDir)
    (style : MotorStyle) (hM : 0 < M) (_hp : p < 4 * M) :
    (onestep c M p dir style).1 < 4 * M :=
  onestep_fst_lt c M p dir style hM

/-- Witness for C2 at M = 16, phase 5, BACKWARD SINGLE (an underflowing
subtraction). -/
theorem onestep_phase_bound_witness :
    0 < 16 ∧ (5 : Nat) < 4 * 16 ∧
    (onestep zeroCurve 16 5 .BACKWARD .SINGLE).1 < 4 * 16 :=
  ⟨by norm_num, by norm_num,
   onestep_phase_bound zeroCurve 16 5 .BACKWARD .SINGLE (by norm_num) (by norm_num)⟩

/-- C3: MICROSTEP onestep advances currentstep by exactly 1 (FORWARD)
or -1 (BACKWARD) wrapped modulo 4M, and sets (ocra, ocrb) by the
quadrant-relative table lookup at the new phase: quadrant 0 gives
(table[M-phase], table[phase]); quadrant 1 (table[phase-M],
table[2M-phase]); quadrant 2 (table[3M-phase], table[phase-2M]);
quadrant 3 (table[phase-3M], table[4M-phase]). -/
theorem microstep_onestep_spec (c : Nat → Nat) (M p : Nat)
    (h4 : 4 * M ∣ U16) (hM : 0 < M) :
    (onestep c M p .FORWARD .MICROSTEP).1 = (p + 1) % (4 * M) ∧
    (onestep c M p .BACKWARD .MICROSTEP).1 = (p + (4 * M - 1)) % (4 * M) ∧
    ∀ dir : MotorDir,
      (onestep c M p dir .MICROSTEP).2 =
        microstepLookupSpec c M (onestep c M p dir .MICROSTEP).1 :=
  ⟨micro_fwd c M p h4 hM, micro_bwd c M p h4 hM,
   fun dir => micro_pair c M p dir h4 hM⟩

/-- Witness for C3 at M = 16, phase 63, FORWARD (wraps to 0). -/
theorem microstep_onestep_spec_witness :
    (onestep curve16 16 63 .FORWARD .MICROSTEP).1 = (63 + 1) % (4 * 16) ∧
    (onestep curve16 16 63 .FORWARD .MICROSTEP).2 =
      microstepLookupSpec curve16 16 (onestep curve16 16 63 .FORWARD .MICROSTEP).1 :=
  ⟨(microstep_onestep_spec curve16 16 63 (by norm_num [U16]) (by norm_num)).1,
   (microstep_onestep_spec curve16 16 63 (by norm_num [U16]) (by norm_num)).2.2 .FORWARD⟩

/-- C4 counterexample: M = 16, SINGLE style, starting phase 8 (inside
[0, 4M)): one forward step then one backward step lands on phase 0, not
back on the original phase 8. -/
theorem roundtrip_claim_cex :
    (8 : Nat) < 4 * 16 ∧
    iterOnestep zeroCurve 16 .BACKWARD .SINGLE 1
      (iterOnestep zeroCurve 16 .FORWARD .SINGLE 1 8) = 0 ∧
    iterOnestep zeroCurve 16 .BACKWARD .SINGLE 1
      (iterOnestep zeroCurve 16 .FORWARD .SINGLE 1 8) ≠ 8 := by
  decide

/-- C4 (amended): N forward steps followed by N backward steps in the
same style return currentstep to its original value for INTERLEAVE and
MICROSTEP from every starting phase in [0, 4M), for SINGLE from every
phase on an even half-step boundary, and for DOUBLE from every phase on
an odd half-step boundary (the opposite-parity starts resynchronize on
the first forward step, losing M/2, as the counterexample shows). -/
theorem roundtrip_amended (c : Nat → Nat) (M N p : Nat) (style : MotorStyle)
    (h4 : 4 * M ∣ U16) (hM : 0 < M) (hE : M % 2 = 0) (hp : p < 4 * M)
    (hS : style = .SINGLE → (p / (M / 2)) % 2 = 0)
    (hD : style = .DOUBLE → (p / (M / 2)) % 2 = 1) :
    iterOnestep c M .BACKWARD style N (iterOnestep c M .FORWARD style N p) = p := by
  cases style with
  | SINGLE =>
    exact roundtrip_generic c M .SINGLE
      (fun q => q < 4 * M ∧ (q / (M / 2)) % 2 = 0)
      (fun q hq => (single_step_ok c M q h4 hM hE hq.1 hq.2).1)
      (fun q hq => (single_step_ok c M q h4 hM hE hq.1 hq.2).2)
      N p ⟨hp, hS rfl⟩
  | DOUBLE =>
    exact roundtrip_generic c M .DOUBLE
      (fun q => q < 4 * M ∧ (q / (M / 2)) % 2 = 1)
      (fun q hq => (double_step_ok c M q h4 hM hE hq.1 hq.2).1)
      (fun q hq => (double_step_ok c M q h4 hM hE hq.1 hq.2).2)
      N p ⟨hp, hD rfl⟩
  | INTERLEAVE =>
    exact roundtrip_generic c M .INTERLEAVE (fun q => q < 4 * M)
      (fun q hq => (inter_step_ok c M q h4 hM hq).1)
      (fun q hq => (inter_step_ok c M q h4 hM hq).2)
      N p hp
  | MICROSTEP =>
    exact roundtrip_generic c M .MICROSTEP (fun q => q < 4 * M)
      (fun q hq => (micro_step_ok c M q h4 hM hq).1)
      (fun q hq => (micro_step_ok c M q h4 hM hq).2)
      N p hp

/-- Witness for C4 (amended): M = 16, SINGLE, N = 3 from the even
position 4. -/
theorem roundtrip_amended_witness :
    iterOnestep zeroCurve 16 .BACKWARD .SINGLE 3
      (iterOnestep zeroCurve 16 .FORWARD .SINGLE 3 4) = 4 :=
  roundtrip_amended zeroCurve 16 3 4 .SINGLE (by norm_num [U16]) (by norm_num)
    (by norm_num) (by norm_num) (fun _ => by decide)
    (fun h => absurd h (by decide))

/-- C5: setSpeed fails with the precondition error for every rpm ≤ 0
(in particular rpm = 0 and rpm = -5); a successful (lock-owning) call
stores the truncation of 60000000 / (revsteps * rpm) into usperstep,
and setSpeed(60) with revsteps = 200 yields usperstep = 5000. -/
theorem setSpeed_spec :
    (∀ (revsteps : Nat) (lk : Bool) (rpm : ℚ), rpm ≤ 0 →
      setSpeed revsteps rpm lk = .error "Motor speed can not be negative or zero.") ∧
    setSpeed 200 0 true = .error "Motor speed can not be negative or zero." ∧
    setSpeed 200 (-5) true = .error "Motor speed can not be negative or zero." ∧
    (∀ (revsteps : Nat) (rpm : ℚ), ¬ rpm ≤ 0 →
      setSpeed revsteps rpm true =
        .ok (some (Int.toNat ⌊(60000000 : ℚ) / (revsteps * rpm)⌋))) ∧
    setSpeed 200 60 true = .ok (some 5000) := by
  refine ⟨?_, ?_, ?_, ?_, ?_⟩
  · intro revsteps lk rpm h
    simp [setSpeed, h]
  · simp [setSpeed]
  · norm_num [setSpeed]
  · intro revsteps rpm h
    simp [setSpeed, h]
  · norm_num [setSpeed]
    rfl

/-- Witness for C5: the precondition failure at rpm = -3. -/
theorem setSpeed_spec_witness :
    setSpeed 100 (-3) false = .error "Motor speed can not be negative or zero." :=
  setSpeed_spec.1 100 false (-3) (by norm_num)

/-- C6: with usperstep still 0 (no successful setSpeed), step fails with
the "speed not configured" condition — the throw is its first action,
before any hardware write or clock creation — and getStepPeriod fails
with the same condition; with usperstep ≠ 0, getStepPeriod returns
exactly usperstep. -/
theorem step_requires_speed :
    (∀ (M steps : Nat) (style : MotorStyle),
      step 0 M steps style = .error "RPM has to be set before stepping the motor.") ∧
    getStepPeriod 0 = .error "RPM has to be set before stepping the motor." ∧
    (∀ u : Nat, u ≠ 0 → getStepPeriod u = .ok u) := by
  refine ⟨fun M steps style => rfl, rfl, fun u hu => ?_⟩
  simp [getStepPeriod, hu]

/-- Witness for C6 at the configured period 5000. -/
theorem step_requires_speed_witness :
    getStepPeriod 5000 = .ok 5000 :=
  step_requires_speed.2.2 5000 (by norm_num)

/-- C7 counterexample: MICROSTEP style, divisor 16, 5 remaining ticks
(not an integral step boundary), motor moving: stopMotor sets the flag,
yet after the next timer tick isMoving is still true — the
odd-microstep early-return branch never consults the flag. -/
theorem stopMotor_claim_cex :
    (stopMotor ⟨0, false, true⟩).stop = true ∧
    isMoving (stepHandlerFn curve16 ⟨5, .FORWARD, .MICROSTEP, 16⟩
      (stopMotor ⟨0, false, true⟩)).2 = true := by
  decide

/-- C7 (amended): stopMotor sets the cancellation flag only while
moving is true (it is the identity on a non-moving motor); once the
flag is set, isMoving becomes false within (remaining ticks mod
divisor) + 1 tick intervals, and within one tick interval for every
non-MICROSTEP style — but the MICROSTEP odd-microstep ticks keep
stepping without checking the flag until an integral step boundary. -/
theorem stopMotor_spec_amended (c : Nat → Nat) (d : TimerData) (s : StepperState)
    (hmv : s.moving = true) (hm : 0 < d.msteps) :
    (stopMotor s).stop = true ∧
    (∀ s2 : StepperState, s2.moving = false → stopMotor s2 = s2) ∧
    isMoving (iterHandler c (d.steps % d.msteps + 1) (d, stopMotor s)).2 = false ∧
    (d.style ≠ .MICROSTEP →
      isMoving (stepHandlerFn c d (stopMotor s)).2 = false) := by
  have hstop : (stopMotor s).stop = true := by simp [stopMotor, hmv]
  refine ⟨hstop, ?_, ?_, ?_⟩
  · intro s2 h2
    simp [stopMotor, h2]
  · exact handler_converges c (d.steps % d.msteps) d (stopMotor s) hstop hm rfl
  · intro hstyle
    show (stepHandlerFn c d (stopMotor s)).2.moving = false
    rw [nonmicro_tick c d (stopMotor s) hstyle hstop]

/-- Witness for C7 (amended): divisor 16, 5 remaining ticks, MICROSTEP:
isMoving is false after 5 % 16 + 1 = 6 ticks. -/
theorem stopMotor_spec_amended_witness :
    isMoving (iterHandler curve16 (5 % 16 + 1)
      (⟨5, .FORWARD, .MICROSTEP, 16⟩, stopMotor ⟨0, false, true⟩)).2 = false :=
  (stopMotor_spec_amended curve16 ⟨5, .FORWARD, .MICROSTEP, 16⟩ ⟨0, false, true⟩
    rfl (by norm_num)).2.2.1

/-- C8: setPWM writes (on, off) = (0, value) for every value ≤ 4095 and
clamps every value > 4095 to the always-on sentinel (4096, 0); both
setPWM and setPin return false without issuing any hardware write when
called before successful board initialization. -/
theorem setPWM_setPin_spec :
    (∀ (io : Nat → Nat → Nat → Bool) (pin v : Nat), v ≤ 4095 →
      setPWM io true pin v = (io pin 0 v, [⟨pin, 0, v⟩])) ∧
    (∀ (io : Nat → Nat → Nat → Bool) (pin v : Nat), 4095 < v →
      setPWM io true pin v = (io pin 4096 0, [⟨pin, 4096, 0⟩])) ∧
    (∀ (io : Nat → Nat → Nat → Bool) (pin v : Nat),
      setPWM io false pin v = (false, [])) ∧
    (∀ (io : Nat → Nat → Nat → Bool) (pin : Nat) (lvl : Bool),
      setPin io false pin lvl = (false, [])) := by
  refine ⟨?_, ?_, ?_, ?_⟩
  · intro io pin v hv
    simp [setPWM, setPWMOnOff, Nat.not_lt.mpr hv]
  · intro io pin v hv
    simp [setPWM, setPWMOnOff, hv]
  · intro io pin v
    rfl
  · intro io pin lvl
    rfl

/-- Witness for C8: an in-range write and an uninitialized refusal. -/
theorem setPWM_setPin_spec_witness :
    setPWM ioTrue true 3 100 = (true, [⟨3, 0, 100⟩]) ∧
    setPWM ioTrue false 3 100 = (false, []) :=
  ⟨setPWM_setPin_spec.1 ioTrue 3 100 (by norm_num),
   setPWM_setPin_spec.2.2.1 ioTrue 3 100⟩

/-- C9: begin returns the cumulative AND of the successes of reset,
setPWMFreq and the sixteen per-channel zeroing writes, stores that same
conjunction as the initialized flag, and reports success iff every
single sub-step succeeded. -/
theorem begin_cumulative_and (r f : Bool) (w : Nat → Bool) :
    (begin r f w).1 = (r && f && (List.range 16).all w) ∧
    (begin r f w).2 = (begin r f w).1 ∧
    ((begin r f w).1 = true ↔
      (r = true ∧ f = true ∧ ∀ i, i < 16 → w i = true)) := by
  have h1 : (begin r f w).1 = (r && f && (List.range 16).all w) := by
    simp [begin, foldl_and_all]
  refine ⟨h1, rfl, ?_⟩
  rw [h1]
  simp [List.all_eq_true, List.mem_range, and_assoc]

/-- Witness for C9: all sub-steps succeeding yields a true, stored
status. -/
theorem begin_cumulative_and_witness :
    (begin true true (fun _ => true)).1 = true := by
  rw [(begin_cumulative_and true true (fun _ => true)).1]
  decide

/-- C10: in step (and stepThreadFn, which computes identically) with
MICROSTEP style, the effective tick count is steps * microsteps in
16-bit arithmetic: it wraps modulo 2^16 (256 requested steps at divisor
256 yield 0 ticks, silently truncating the motion) and equals
steps * microsteps exactly whenever that product is below 2^16. -/
theorem microstep_ticks_wrap :
    (∀ (u M steps : Nat), u ≠ 0 →
      step u M steps .MICROSTEP = .ok (u / M, steps * M % U16)) ∧
    (∀ (u M steps : Nat), u ≠ 0 → steps * M < U16 →
      step u M steps .MICROSTEP = .ok (u / M, steps * M)) ∧
    step 1000000 256 256 .MICROSTEP = .ok (1000000 / 256, 0) := by
  refine ⟨?_, ?_, ?_⟩
  · intro u M steps hu
    simp [step, hu]
  · intro u M steps hu hlt
    simp [step, hu, Nat.mod_eq_of_lt hlt]
  · rfl

/-- Witness for C10: 200 steps at divisor 16 commands exactly 3200
ticks. -/
theorem microstep_ticks_wrap_witness :
    step 5000 16 200 .MICROSTEP = .ok (5000 / 16, 3200) :=
  microstep_ticks_wrap.2.1 5000 16 200 (by norm_num) (by norm_num [U16])

end Adafruit
